import Mathlib

/-!
Verification of the content pipeline of a Rust blog engine (`src/main.rs`):
front-matter parsing (`parse_metadata`), slug generation, the Markdown
event-stream transducer (`markdown_to_html`), the syntax-highlighting
adapter (`highlight_code`), reading-time computation
(`calculate_reading_time`), post assembly and collection sorting
(`get_posts`).

Rust strings (`String` / `&str`) are modelled as lists of characters
(`Str` below); all string primitives from the Rust standard library that
the pipeline uses (`splitn`, `lines`, `trim`, `trim_matches`, `split`,
`split_whitespace`, `to_lowercase`, `chars().take`) are given executable
models by structural recursion on the character list.  Unicode-dependent
character classification (`char::is_alphanumeric`, `String::to_lowercase`)
is modelled by the ASCII classifiers, which agree with Rust on all ASCII
input; where a theorem must hold for every classifier, the definitions are
parameterised over it.
-/

/-- Rust string slices / owned strings, as character lists. -/
abbrev Str := List Char

/-- Does `l` start with `pat`?  Models `str::starts_with` used implicitly
by the pattern search of `splitn`. -/
def startsWith : Str → Str → Bool
  | _, [] => true
  | [], _ :: _ => false
  | c :: cs, p :: ps => c == p && startsWith cs ps

/-- Find the first occurrence of the (nonempty) pattern `pat` in `l`:
returns the text before the match and the text after it.  Models the
leftmost non-overlapping match step of Rust `str::splitn` with a string
pattern. -/
def splitOnceOn (pat : Str) : Str → Option (Str × Str)
  | [] => none
  | c :: rest =>
    if startsWith (c :: rest) pat then some ([], (c :: rest).drop pat.length)
    else
      match splitOnceOn pat rest with
      | none => none
      | some (a, b) => some (c :: a, b)

/-- Models Rust `content.splitn(3, pat).collect::<Vec<_>>()` for a nonempty
string pattern: at most three parts, the last part keeps the rest of the
string (including later occurrences of the pattern). -/
def splitn3 (pat : Str) (l : Str) : List Str :=
  match splitOnceOn pat l with
  | none => [l]
  | some (a, r₁) =>
    match splitOnceOn pat r₁ with
    | none => [a, r₁]
    | some (b, r₂) => [a, b, r₂]

/-- Models Rust `line.splitn(2, c).collect::<Vec<_>>()` with a char
pattern: one or two parts. -/
def splitn2Char (c : Char) (l : Str) : List Str :=
  match splitOnceOn [c] l with
  | none => [l]
  | some (a, b) => [a, b]

/-- Split at every character satisfying `p`, keeping empty segments.
Models Rust `str::split` with a char/predicate pattern. -/
def splitBy (p : Char → Bool) : Str → List Str
  | [] => [[]]
  | c :: rest =>
    let r := splitBy p rest
    if p c then [] :: r
    else
      match r with
      | [] => [[c]]
      | t :: ts => (c :: t) :: ts

/-- Models Rust `str::split_whitespace`: whitespace-delimited tokens,
empty tokens dropped. -/
def split_whitespace (l : Str) : List Str :=
  (splitBy Char.isWhitespace l).filter (fun t => t ≠ [])

/-- Remove characters satisfying `p` from both ends.  Models Rust
`str::trim_matches` (and `str::trim` when `p` is whitespace). -/
def trimMatchesBy (p : Char → Bool) (l : Str) : Str :=
  ((l.dropWhile p).reverse.dropWhile p).reverse

/-- Models Rust `str::trim`. -/
def trim (l : Str) : Str := trimMatchesBy Char.isWhitespace l

/-- Models Rust `str::trim_matches(c)` for a single char pattern. -/
def trim_matches (c : Char) (l : Str) : Str := trimMatchesBy (fun x => x == c) l

/-- Models Rust `str::lines`: split on `\n`, drop a final empty segment,
strip one trailing `\r` from each line. -/
def rustLines (l : Str) : List Str :=
  let parts := splitBy (fun c => c == '\n') l
  let parts := if parts.getLast? = some [] then parts.dropLast else parts
  parts.map (fun line =>
    if line.getLast? = some '\r' then line.dropLast else line)

/-- Front-matter metadata record, mirroring `struct Metadata` of
`src/main.rs` (lines 157-170) with its `Default` values. -/
structure Metadata where
  title : Str := []
  date : Str := []
  tags : List Str := []
  summary : Str := []
  author : Option Str := none
  image : Option Str := none
  image_alt : Option Str := none
  keywords : Option Str := none
  canonical : Option Str := none
  github_repo : Option Str := none
  website : Option Str := none
deriving DecidableEq

/-- The `tags` value decoder of `parse_metadata` (lines 227-235): strip
surrounding brackets, split on commas, trim whitespace then double then
single quotes from each element, drop empty elements. -/
def parseTags (value : Str) : List Str :=
  let cleaned := trimMatchesBy (fun c => c == '[' || c == ']') value
  ((splitBy (fun c => c == ',') cleaned).map
      (fun s => trim_matches (Char.ofNat 39) (trim_matches (Char.ofNat 34) (trim s)))).filter
    (fun s => s ≠ [])

/-- One iteration of the `for line in meta_str.lines()` loop of
`parse_metadata` (lines 219-247): split the line at the first colon,
trim the key, trim whitespace and double quotes off the value, and
assign the recognized key's field (unknown keys fall through). -/
def applyMetaLine (meta : Metadata) (line : Str) : Metadata :=
  match splitn2Char ':' line with
  | [k, v] =>
    let key := trim k
    let value := trim_matches (Char.ofNat 34) (trim v)
    if key = "title".data then { meta with title := value }
    else if key = "date".data then { meta with date := value }
    else if key = "tags".data then { meta with tags := parseTags value }
    else if key = "summary".data then { meta with summary := value }
    else if key = "author".data then { meta with author := some value }
    else if key = "image".data then { meta with image := some value }
    else if key = "image_alt".data then { meta with image_alt := some value }
    else if key = "keywords".data then { meta with keywords := some value }
    else if key = "canonical".data then { meta with canonical := some value }
    else if key = "github_repo".data then { meta with github_repo := some value }
    else if key = "website".data ∨ key = "homepage".data then { meta with website := some value }
    else meta
  | _ => meta

/-- Models `parse_metadata` (lines 211-249): split the document on the
first two occurrences of `---`; fewer than three parts means no
metadata; otherwise decode the middle part line by line. -/
def parse_metadata (content : Str) : Option Metadata :=
  let parts := splitn3 "---".data content
  if parts.length < 3 then none
  else some ((rustLines (parts.getD 1 [])).foldl applyMetaLine {})

/-- Does this line assign the `title` key when fed to `applyMetaLine`? -/
def setsTitle (line : Str) : Bool :=
  match splitn2Char ':' line with
  | [k, _] => trim k = "title".data
  | _ => false

/-- Is this line one that `applyMetaLine` reacts to at all: it contains a
colon and its trimmed key is one of the recognized front-matter keys? -/
def recognizedMetaLine (line : Str) : Bool :=
  match splitn2Char ':' line with
  | [k, _] =>
    let key := trim k
    key = "title".data ∨ key = "date".data ∨ key = "tags".data ∨
    key = "summary".data ∨ key = "author".data ∨ key = "image".data ∨
    key = "image_alt".data ∨ key = "keywords".data ∨ key = "canonical".data ∨
    key = "github_repo".data ∨ key = "website".data ∨ key = "homepage".data
  | _ => false

/-- Models Rust `String::to_lowercase` (faithful on ASCII, where it maps
characters pointwise). -/
def rustToLowercase (s : Str) : Str := s.map Char.toLower

/-- The slug computation of the `slugify` closure in `markdown_to_html`
(lines 272-280), parameterised over the lower-casing function and the
alphanumeric classifier: lower-case, map every non-alphanumeric character
to a space, split on whitespace, join with `-`. -/
def slugifyWith (lower : Str → Str) (isAlnum : Char → Bool) (text : Str) : Str :=
  List.intercalate "-".data
    (split_whitespace ((lower text).map (fun c => if isAlnum c then c else ' ')))

/-- The post-slug computation inlined in `get_posts` (lines 521-527),
parameterised the same way: lower-case, keep alphanumerics and spaces,
map every other character to a space, split on whitespace, join with
`-`. -/
def postSlugWith (lower : Str → Str) (isAlnum : Char → Bool) (title : Str) : Str :=
  List.intercalate "-".data
    (split_whitespace
      ((lower title).map (fun c => if isAlnum c || c == ' ' then c else ' ')))

/-- Modelled from the spec ("Pure function slugify(text): lower-case, map
every non-alphanumeric character to a space, collapse runs of whitespace,
join words with `-`"), as the reference normalization for the
refinement claim. -/
def slugifySpec (lower : Str → Str) (isAlnum : Char → Bool) (text : Str) : Str :=
  List.intercalate "-".data
    (split_whitespace ((lower text).map (fun c => if isAlnum c then c else ' ')))

/-- The concrete `slugify` closure of `markdown_to_html`, with the ASCII
models of `to_lowercase` and `char::is_alphanumeric`. -/
def slugify (text : Str) : Str := slugifyWith rustToLowercase Char.isAlphanum text

/-- The concrete post-slug computation of `get_posts`. -/
def postSlug (title : Str) : Str := postSlugWith rustToLowercase Char.isAlphanum title

/-- Models `calculate_reading_time` (lines 488-492): whitespace-delimited
word count, and reading time `(word_count / 200).max(1)`. -/
def calculate_reading_time (content : Str) : Nat × Nat :=
  let word_count := (split_whitespace content).length
  ((word_count / 200).max 1, word_count)

/-- Models `html_escape::encode_text`, used by the highlighter fallback:
escape `&`, `<`, `>`. -/
def encode_text (s : Str) : Str :=
  (s.map (fun c =>
    if c == '&' then "&amp;".data
    else if c == '<' then "&lt;".data
    else if c == '>' then "&gt;".data
    else [c])).flatten

/-- Models `pulldown_cmark::escape::escape_html`, the escaping the default
single-event HTML renderer applies to text: escape `&`, `<`, `>`, `"`. -/
def escape_html (s : Str) : Str :=
  (s.map (fun c =>
    if c == '&' then "&amp;".data
    else if c == '<' then "&lt;".data
    else if c == '>' then "&gt;".data
    else if c == Char.ofNat 34 then "&quot;".data
    else [c])).flatten

/-- The fallback block of `highlight_code` (lines 477-484): an escaped
`<pre><code>` shell carrying the raw language hint as a CSS class. -/
def fallbackBlock (code lang : Str) : Str :=
  "<pre class=\"bg-gray-900 text-gray-100 p-4 rounded-lg overflow-x-auto my-4\"><code class=\"language-".data
    ++ lang ++ "\">".data ++ encode_text code ++ "</code></pre>".data

/-- The success shell of `highlight_code` (lines 460-476): the fixed HTML
wrapper around the highlighter output, exposing the language label and a
copy button. -/
def successBlock (label html : Str) : Str :=
  "<div class=\"code-block relative my-4 rounded-lg overflow-hidden\">\n                    <div class=\"code-header flex items-center justify-between px-4 py-2 bg-gray-800 text-gray-400 text-xs\">\n                        <span class=\"code-lang font-mono\">".data
    ++ label
    ++ "</span>\n                        <button class=\"copy-btn hover:text-white transition-colors\" onclick=\"copyCode(this)\">\n                            <svg class=\"w-4 h-4\" fill=\"none\" stroke=\"currentColor\" viewBox=\"0 0 24 24\">\n                                <path stroke-linecap=\"round\" stroke-linejoin=\"round\" stroke-width=\"2\" d=\"M8 16H6a2 2 0 01-2-2V6a2 2 0 012-2h8a2 2 0 012 2v2m-6 12h8a2 2 0 002-2v-8a2 2 0 00-2-2h-8a2 2 0 00-2 2v8a2 2 0 002 2z\"></path>\n                            </svg>\n                        </button>\n                    </div>\n                    <div class=\"code-content overflow-x-auto\">".data
    ++ html
    ++ "</div>\n                </div>".data

section Highlighter

/- The syntect grammar registry and renderer are external library state
(`SYNTAX_SET`, `THEME_SET`, `highlighted_html_for_string`); the adapter is
verified for every possible behaviour of them, so they are abstract
parameters here.  `Syn` stands for `&SyntaxReference`. -/
variable {Syn : Type}
variable (findSyntaxByToken : Str → Option Syn)
variable (findSyntaxByExtension : Str → Option Syn)
variable (plainTextSyntax : Syn)
variable (highlightedHtmlForString : Str → Syn → Except Unit Str)

/-- The grammar-resolution chain of `highlight_code` (lines 452-455):
`find_syntax_by_token`, else `find_syntax_by_extension`, else
`find_syntax_plain_text`. -/
def resolveSyntax (lang : Str) : Syn :=
  match findSyntaxByToken lang with
  | some s => s
  | none =>
    match findSyntaxByExtension lang with
    | some s => s
    | none => plainTextSyntax

/-- Models `highlight_code` (lines 451-485): resolve the grammar, run the
external renderer, wrap success in the fixed shell (with `text` as label
for an empty hint), and fall back to the escaped `<pre><code>` block on
failure. -/
def highlight_code (code lang : Str) : Str :=
  let syn := resolveSyntax findSyntaxByToken findSyntaxByExtension plainTextSyntax lang
  match highlightedHtmlForString code syn with
  | Except.ok html => successBlock (if lang = [] then "text".data else lang) html
  | Except.error _ => fallbackBlock code lang

end Highlighter

/-- Decimal digits of a number, as characters; models Rust's `{}`
formatting of an integer. -/
def natToChars (n : Nat) : Str := Nat.toDigits 10 n

/-- Heading levels of the `pulldown_cmark::HeadingLevel` enum. -/
inductive HeadingLevel
  | h1 | h2 | h3 | h4 | h5 | h6
deriving DecidableEq

/-- The `u32` level the `match` at lines 343-350 extracts. -/
def HeadingLevel.toNat : HeadingLevel → Nat
  | .h1 => 1
  | .h2 => 2
  | .h3 => 3
  | .h4 => 4
  | .h5 => 5
  | .h6 => 6

/-- Models `pulldown_cmark::CodeBlockKind`. -/
inductive CodeBlockKind
  | fenced (lang : Str)
  | indented
deriving DecidableEq

/-- The Markdown event stream consumed by `markdown_to_html`, one case
per event kind the `match` at lines 285-429 distinguishes; `other`
covers the catch-all `_` arm (paragraphs, lists, links, emphasis,
images, rules, raw HTML, ...), identified by an opaque tag. -/
inductive Event
  | text (s : Str)
  | code (s : Str)
  | softBreak
  | hardBreak
  | startHeading (level : HeadingLevel)
  | endHeading
  | startCodeBlock (kind : CodeBlockKind)
  | endCodeBlock
  | startTable
  | endTable
  | startTableHead
  | endTableHead
  | startTableRow
  | endTableRow
  | startTableCell
  | endTableCell
  | taskListMarker (checked : Bool)
  | startFootnoteDefinition (name : Str)
  | endFootnoteDefinition
  | footnoteReference (name : Str)
  | startStrikethrough
  | endStrikethrough
  | startBlockQuote
  | endBlockQuote
  | other (tag : Nat)
deriving DecidableEq

/-- The mutable locals of `markdown_to_html` (lines 263-270). -/
structure TransducerState where
  html_output : Str
  in_code_block : Bool
  code_lang : Str
  code_content : Str
  in_table_head : Bool
  heading_level : Option Nat
  heading_text : Str
  heading_inner : Str
deriving DecidableEq

/-- The initial values of the locals of `markdown_to_html`. -/
def initState : TransducerState :=
  { html_output := [], in_code_block := false, code_lang := [],
    code_content := [], in_table_head := false, heading_level := none,
    heading_text := [], heading_inner := [] }

/-- The checkbox fragment for a checked task-list marker (line 391). -/
def checkedBox : Str :=
  "<input type=\"checkbox\" checked disabled class=\"mr-2 h-4 w-4 rounded border-gray-300 text-indigo-600 bg-indigo-600 accent-indigo-600\"> ".data

/-- The checkbox fragment for an unchecked task-list marker (line 393). -/
def uncheckedBox : Str :=
  "<input type=\"checkbox\" disabled class=\"mr-2 h-4 w-4 rounded border-gray-300 bg-gray-100 dark:bg-gray-700\"> ".data

/-- One iteration of the event loop of `markdown_to_html`
(lines 285-431).  `pushHtml` models the external default single-event
renderer `pulldown_cmark::html::push_html` restricted to one event;
`highlightFn` models `highlight_code` applied with the global grammar
registry.  The heading buffer is checked first, exactly as the
`if heading_level.is_some()` block does. -/
def processEvent (pushHtml : Event → Str) (highlightFn : Str → Str → Str)
    (s : TransducerState) (e : Event) : TransducerState :=
  match s.heading_level with
  | some lvl =>
    match e with
    | .endHeading =>
      { s with
        html_output := s.html_output ++ "<h".data ++ natToChars lvl
          ++ " id=\"".data ++ slugify s.heading_text ++ "\">".data
          ++ s.heading_inner ++ "</h".data ++ natToChars lvl ++ ">".data,
        heading_level := none, heading_text := [], heading_inner := [] }
    | .text t =>
      { s with heading_text := s.heading_text ++ t,
               heading_inner := s.heading_inner ++ pushHtml (.text t) }
    | .code t =>
      { s with heading_text := s.heading_text ++ t,
               heading_inner := s.heading_inner ++ pushHtml (.code t) }
    | .softBreak =>
      { s with heading_text := s.heading_text ++ [' '],
               heading_inner := s.heading_inner ++ pushHtml .softBreak }
    | .hardBreak =>
      { s with heading_text := s.heading_text ++ [' '],
               heading_inner := s.heading_inner ++ pushHtml .hardBreak }
    | _ => { s with heading_inner := s.heading_inner ++ pushHtml e }
  | none =>
    match e with
    | .startCodeBlock kind =>
      { s with in_code_block := true, code_content := [],
               code_lang := match kind with
                 | .fenced lang => lang
                 | .indented => [] }
    | .endCodeBlock =>
      { s with in_code_block := false,
               html_output := s.html_output ++ highlightFn s.code_content s.code_lang }
    | .text t =>
      if s.in_code_block then { s with code_content := s.code_content ++ t }
      else { s with html_output := s.html_output ++ pushHtml (.text t) }
    | .startHeading level =>
      { s with heading_level := some level.toNat, heading_text := [],
               heading_inner := [] }
    | .startTable =>
      { s with html_output := s.html_output ++ "<div class=\"table-container\"><table>".data }
    | .endTable =>
      { s with html_output := s.html_output ++ "</table></div>".data }
    | .startTableHead =>
      { s with in_table_head := true, html_output := s.html_output ++ "<thead><tr>".data }
    | .endTableHead =>
      { s with in_table_head := false,
               html_output := s.html_output ++ "</tr></thead><tbody>".data }
    | .startTableRow => { s with html_output := s.html_output ++ "<tr>".data }
    | .endTableRow => { s with html_output := s.html_output ++ "</tr>".data }
    | .startTableCell =>
      { s with html_output := s.html_output
          ++ (if s.in_table_head then "<th>".data else "<td>".data) }
    | .endTableCell =>
      { s with html_output := s.html_output
          ++ (if s.in_table_head then "</th>".data else "</td>".data) }
    | .taskListMarker checked =>
      { s with html_output := s.html_output ++ (if checked then checkedBox else uncheckedBox) }
    | .startFootnoteDefinition name =>
      { s with html_output := s.html_output ++ "<div class=\"footnote\" id=\"fn-".data
          ++ name ++ "\"><sup>".data ++ name ++ "</sup> ".data }
    | .endFootnoteDefinition =>
      { s with html_output := s.html_output ++ "</div>".data }
    | .footnoteReference name =>
      { s with html_output := s.html_output ++ "<sup><a href=\"#fn-".data
          ++ name ++ "\" class=\"footnote-ref\">[".data ++ name ++ "]</a></sup>".data }
    | .startStrikethrough =>
      { s with html_output := s.html_output ++ "<del class=\"line-through text-gray-500\">".data }
    | .endStrikethrough =>
      { s with html_output := s.html_output ++ "</del>".data }
    | .startBlockQuote =>
      { s with html_output := s.html_output
          ++ "<blockquote class=\"border-l-4 border-primary-500 pl-4 my-4 italic text-gray-600 dark:text-gray-400\">".data }
    | .endBlockQuote =>
      { s with html_output := s.html_output ++ "</blockquote>".data }
    | _ => { s with html_output := s.html_output ++ pushHtml e }

/-- Models the event loop of `markdown_to_html` applied to a full event
stream (the external `pulldown_cmark::Parser` produces the stream from
the Markdown text). -/
def markdown_to_html_events (pushHtml : Event → Str)
    (highlightFn : Str → Str → Str) (events : List Event) : Str :=
  (events.foldl (processEvent pushHtml highlightFn) initState).html_output

/-- A concrete model of `pulldown_cmark::html::push_html` on a single
event, for evaluating the transducer on concrete streams: text is
HTML-escaped, inline code is wrapped in `<code>`, soft breaks are a
newline, hard breaks `<br />`. -/
def pushHtmlModel : Event → Str
  | .text t => escape_html t
  | .code t => "<code>".data ++ escape_html t ++ "</code>".data
  | .softBreak => "\n".data
  | .hardBreak => "<br />\n".data
  | .startHeading level => "<h".data ++ natToChars level.toNat ++ ">".data
  | .endHeading => "".data
  | _ => []

/-- A resolved local timestamp, modelling `chrono::DateTime<Local>` as a
broken-down civil time plus the rendered UTC offset (`%z`). -/
structure LocalDateTime where
  year : Nat
  month : Nat
  day : Nat
  hour : Nat
  minute : Nat
  second : Nat
  tzOffset : Str
deriving DecidableEq

/-- Zero-padded two-digit field, as chrono renders `%m`, `%d`, `%H`,
`%M`, `%S`. -/
def pad2 (n : Nat) : Str := if n < 10 then '0' :: natToChars n else natToChars n

/-- Zero-padded four-digit year, as chrono renders `%Y`. -/
def pad4 (n : Nat) : Str :=
  if n < 10 then '0' :: '0' :: '0' :: natToChars n
  else if n < 100 then '0' :: '0' :: natToChars n
  else if n < 1000 then '0' :: natToChars n
  else natToChars n

/-- Full English month name, as chrono renders `%B` (months 1-12). -/
def monthName : Nat → Str
  | 1 => "January".data
  | 2 => "February".data
  | 3 => "March".data
  | 4 => "April".data
  | 5 => "May".data
  | 6 => "June".data
  | 7 => "July".data
  | 8 => "August".data
  | 9 => "September".data
  | 10 => "October".data
  | 11 => "November".data
  | 12 => "December".data
  | _ => []

/-- The display date of a post: chrono format `%B %d, %Y` (line 538). -/
def formatDisplay (d : LocalDateTime) : Str :=
  monthName d.month ++ " ".data ++ pad2 d.day ++ ", ".data ++ pad4 d.year

/-- The ISO date of a post: chrono format `%Y-%m-%dT%H:%M:%S%z`
(line 539). -/
def formatIso (d : LocalDateTime) : Str :=
  pad4 d.year ++ "-".data ++ pad2 d.month ++ "-".data ++ pad2 d.day
    ++ "T".data ++ pad2 d.hour ++ ":".data ++ pad2 d.minute ++ ":".data
    ++ pad2 d.second ++ d.tzOffset

/-- Gregorian leap year. -/
def isLeapYear (y : Nat) : Bool :=
  y % 4 == 0 && (y % 100 != 0 || y % 400 == 0)

/-- Days in a Gregorian month. -/
def daysInMonth (y m : Nat) : Nat :=
  if m = 2 then (if isLeapYear y then 29 else 28)
  else if m = 4 ∨ m = 6 ∨ m = 9 ∨ m = 11 then 30
  else 31

/-- Models the date parse at lines 508-511:
`DateTime::parse_from_str(&format!("{} 00:00:00 +0000", metadata.date),
"%Y-%m-%d %H:%M:%S %z")`.  Because the time-of-day and offset are
appended as constants, the parse succeeds exactly when the metadata
date string is `year-month-day` with all-digit fields (the month and
day one or two digits) naming a valid Gregorian calendar date. -/
def parseDateYmd (s : Str) : Option (Nat × Nat × Nat) :=
  match splitBy (fun c => c == '-') s with
  | [y, m, d] =>
    if y ≠ [] && y.all Char.isDigit &&
       m ≠ [] && decide (m.length ≤ 2) && m.all Char.isDigit &&
       d ≠ [] && decide (d.length ≤ 2) && d.all Char.isDigit then
      let yn := y.foldl (fun acc c => acc * 10 + (c.toNat - 48)) 0
      let mn := m.foldl (fun acc c => acc * 10 + (c.toNat - 48)) 0
      let dn := d.foldl (fun acc c => acc * 10 + (c.toNat - 48)) 0
      if 1 ≤ mn && mn ≤ 12 && 1 ≤ dn && dn ≤ daysInMonth yn mn then
        some (yn, mn, dn)
      else none
    else none
  | _ => none

/-- The date resolution of `get_posts` (lines 508-519): parse the
author-supplied date as midnight UTC and convert to local time
(`localOfUtc` models `Local.from_utc_datetime`); on failure fall back
to the file's modification time, or to the current time when that is
unavailable. -/
def resolveDate (localOfUtc : LocalDateTime → LocalDateTime) (dateStr : Str)
    (mtime : Option LocalDateTime) (now : LocalDateTime) : LocalDateTime :=
  match parseDateYmd dateStr with
  | some (y, m, d) => localOfUtc ⟨y, m, d, 0, 0, 0, "+0000".data⟩
  | none => mtime.getD now

/-- Site configuration, mirroring `struct SiteConfig` (lines 41-49). -/
structure SiteConfig where
  title : Str
  description : Str
  url : Str
  author : Str
  language : Str
  twitter_handle : Str
  logo : Str
deriving DecidableEq

/-- A fully assembled post, mirroring `struct Post` (lines 174-192). -/
structure Post where
  title : Str
  content : Str
  summary : Str
  date : Str
  date_iso : Str
  tags : List Str
  filename : Str
  slug : Str
  author : Str
  image : Str
  image_alt : Str
  keywords : Str
  canonical : Str
  reading_time : Nat
  word_count : Nat
  github_repo : Option Str
  website : Option Str
deriving DecidableEq

/-- The per-document assembly of `get_posts` (lines 504-556), given the
already-parsed metadata and the body text (`content_str`, the third
`---` segment).  `localOfUtc` models the chrono local-timezone
conversion and `markdownToHtml` the composition of the external
`pulldown_cmark::Parser` with the event transducer; both are
environment-dependent and passed as parameters. -/
def assemblePost (cfg : SiteConfig) (localOfUtc : LocalDateTime → LocalDateTime)
    (markdownToHtml : Str → Str) (filename : Str) (metadata : Metadata)
    (content_str : Str) (mtime : Option LocalDateTime) (now : LocalDateTime) :
    Post :=
  let html_content := markdownToHtml content_str
  let rt := calculate_reading_time content_str
  let date := resolveDate localOfUtc metadata.date mtime now
  let slug := postSlug metadata.title
  let tags_clone := metadata.tags
  { title := metadata.title
    content := html_content
    summary :=
      if metadata.summary = [] then content_str.take 160 ++ "...".data
      else metadata.summary
    date := formatDisplay date
    date_iso := formatIso date
    tags := tags_clone
    filename := filename
    slug := slug
    author := metadata.author.getD cfg.author
    image := metadata.image.getD (cfg.url ++ "/og-default.png".data)
    image_alt := metadata.image_alt.getD metadata.title
    keywords := metadata.keywords.getD (List.intercalate ", ".data (tags_clone.take 5))
    canonical := metadata.canonical.getD (cfg.url ++ "/blog/".data ++ slug)
    reading_time := rt.1
    word_count := rt.2
    github_repo := metadata.github_repo
    website := metadata.website }

/-- The body of the per-file loop of `get_posts` (lines 502-558): parse
the front matter (skipping the file when there is none), take the third
`---` segment as the body (`.nth(2).unwrap_or("")`), and assemble the
post. -/
def processDocument (cfg : SiteConfig) (localOfUtc : LocalDateTime → LocalDateTime)
    (markdownToHtml : Str → Str) (filename : Str) (content : Str)
    (mtime : Option LocalDateTime) (now : LocalDateTime) : Option Post :=
  match parse_metadata content with
  | none => none
  | some metadata =>
    some (assemblePost cfg localOfUtc markdownToHtml filename metadata
      ((splitn3 "---".data content).getD 2 []) mtime now)

/-- The final sort of `get_posts` (line 564):
`posts.sort_by(|a, b| b.date_iso.cmp(&a.date_iso))`, i.e. sort by
`date_iso` descending under lexicographic string comparison (modelled by
a stable comparison sort, as Rust `sort_by` is). -/
def sortByDateIsoDesc (posts : List Post) : List Post :=
  List.insertionSort (fun a b => b.date_iso ≤ a.date_iso) posts

/-- Models `get_posts` (lines 495-566) over the storage capability's
output: a list of (filename, raw content, optional mtime) triples in
directory order.  Documents without parseable front matter are dropped;
the result is sorted by `date_iso` descending. -/
def get_posts (cfg : SiteConfig) (localOfUtc : LocalDateTime → LocalDateTime)
    (markdownToHtml : Str → Str)
    (files : List (Str × Str × Option LocalDateTime)) (now : LocalDateTime) :
    List Post :=
  sortByDateIsoDesc
    (files.filterMap (fun f =>
      processDocument cfg localOfUtc markdownToHtml f.1 f.2.1 f.2.2 now))

/-- A post that differs only in `date_iso`, for exercising the
collection sort. -/
def mkDatePost (iso : Str) : Post :=
  { title := [], content := [], summary := [], date := [], date_iso := iso,
    tags := [], filename := [], slug := [], author := [], image := [],
    image_alt := [], keywords := [], canonical := [], reading_time := 0,
    word_count := 0, github_repo := none, website := none }

/-- A line that contains no colon, or whose trimmed key is none of the
recognized front-matter keys, leaves the metadata record unchanged. -/
theorem applyMetaLine_unrecognized (m : Metadata) (line : Str)
    (h : recognizedMetaLine line = false) : applyMetaLine m line = m := by
  unfold applyMetaLine
  unfold recognizedMetaLine at h
  cases hsp : splitn2Char ':' line with
  | nil => rfl
  | cons k rest =>
    cases rest with
    | nil => rfl
    | cons v rest2 =>
      cases rest2 with
      | cons w rest3 => rfl
      | nil =>
        rw [hsp] at h
        simp only [decide_eq_false_iff_not] at h
        push_neg at h
        obtain ⟨h1, h2, h3, h4, h5, h6, h7, h8, h9, h10, h11, h12⟩ := h
        simp [h1, h2, h3, h4, h5, h6, h7, h8, h9, h10, h11, h12]

/-- A line that assigns the `title` key sets the title field to the
trimmed, quote-stripped value after the first colon. -/
theorem applyMetaLine_setsTitle (m : Metadata) (line : Str)
    (h : setsTitle line = true) :
    (applyMetaLine m line).title =
      trim_matches (Char.ofNat 34) (trim ((splitn2Char ':' line).getD 1 [])) := by
  unfold applyMetaLine
  unfold setsTitle at h
  cases hsp : splitn2Char ':' line with
  | nil => rw [hsp] at h; simp at h
  | cons k rest =>
    cases rest with
    | nil => rw [hsp] at h; simp at h
    | cons v rest2 =>
      cases rest2 with
      | cons w rest3 => rw [hsp] at h; simp at h
      | nil =>
        rw [hsp] at h
        simp only [decide_eq_true_eq] at h
        simp [h]

/-- A line that does not assign the `title` key leaves the title field
unchanged, whatever else it assigns. -/
theorem applyMetaLine_title_invariant (m : Metadata) (line : Str)
    (h : setsTitle line = false) : (applyMetaLine m line).title = m.title := by
  unfold applyMetaLine
  unfold setsTitle at h
  cases hsp : splitn2Char ':' line with
  | nil => rfl
  | cons k rest =>
    cases rest with
    | nil => rfl
    | cons v rest2 =>
      cases rest2 with
      | cons w rest3 => rfl
      | nil =>
        rw [hsp] at h
        simp only [decide_eq_false_iff_not] at h
        simp only [if_neg h, apply_ite Metadata.title]
        simp

/-- Folding lines none of which assigns `title` preserves the title
field. -/
theorem foldl_title_invariant (m : Metadata) (ls : List Str)
    (h : ∀ l ∈ ls, setsTitle l = false) :
    (ls.foldl applyMetaLine m).title = m.title := by
  induction ls generalizing m with
  | nil => rfl
  | cons a t ih =>
    rw [List.foldl_cons, ih _ (fun l hl => h l (List.mem_cons_of_mem a hl)),
      applyMetaLine_title_invariant m a (h a (List.mem_cons_self a t))]

/-- C2: `parse_metadata` returns `none` exactly when splitting the
document on the first two occurrences of `---` yields fewer than three
segments; in every other case it returns a `Metadata` value, and lines
with unrecognized keys (or no colon) are silently ignored. -/
theorem parse_metadata_none_iff_short_split (content : Str) :
    (parse_metadata content = none ↔ (splitn3 "---".data content).length < 3) ∧
    (∀ (m : Metadata) (line : Str), recognizedMetaLine line = false →
      applyMetaLine m line = m) := by
  constructor
  · unfold parse_metadata
    by_cases h : (splitn3 "---".data content).length < 3
    · simp [h]
    · simp [h]
  · exact applyMetaLine_unrecognized

/-- Witness for C2 at concrete inputs: a delimiter-free document is
rejected, and an unknown key is ignored. -/
theorem parse_metadata_none_iff_short_split_witness :
    (parse_metadata "no delimiters here".data = none ↔
      (splitn3 "---".data "no delimiters here".data).length < 3) ∧
    applyMetaLine {} "unknownkey: 1".data = ({} : Metadata) :=
  ⟨(parse_metadata_none_iff_short_split "no delimiters here".data).1,
   (parse_metadata_none_iff_short_split [] ).2 {} "unknownkey: 1".data (by decide)⟩

/-- C5: `word_count` is the number of whitespace-delimited tokens of the
body, `reading_time` is `max(1, word_count / 200)` with integer
division, and `reading_time ≥ 1` always. -/
theorem reading_time_formula (B : Str) :
    (calculate_reading_time B).2 = (split_whitespace B).length ∧
    (calculate_reading_time B).1 = Nat.max 1 ((calculate_reading_time B).2 / 200) ∧
    1 ≤ (calculate_reading_time B).1 := by
  refine ⟨rfl, ?_, ?_⟩
  · exact Nat.max_comm ((split_whitespace B).length / 200) 1
  · exact Nat.le_max_right ((split_whitespace B).length / 200) 1

/-- C9: the post-slug computation of `get_posts`, the heading-anchor
`slugify` closure of `markdown_to_html`, and the spec's reference
normalization compute the same function, for every lower-casing function
and alphanumeric classifier (hence in particular for the concrete
ones). -/
theorem slug_computations_agree (lower : Str → Str) (isAlnum : Char → Bool)
    (text : Str) :
    postSlugWith lower isAlnum text = slugifyWith lower isAlnum text ∧
    slugifyWith lower isAlnum text = slugifySpec lower isAlnum text ∧
    postSlug text = slugify text := by
  have hfun : (fun c => if isAlnum c || c == ' ' then c else ' ') =
      (fun c => if isAlnum c then c else ' ') := by
    funext c
    by_cases hc : c = ' '
    · subst hc; simp
    · have hb : (c == ' ') = false := by
        simpa using hc
      simp [hb]
  have hgen : ∀ (lo : Str → Str) (al : Char → Bool),
      postSlugWith lo al text = slugifyWith lo al text := by
    intro lo al
    have hfun' : (fun c => if al c || c == ' ' then c else ' ') =
        (fun c => if al c then c else ' ') := by
      funext c
      by_cases hc : c = ' '
      · subst hc; simp
      · have hb : (c == ' ') = false := by
          simpa using hc
        simp [hb]
    unfold postSlugWith slugifyWith
    rw [hfun']
  exact ⟨hgen lower isAlnum, rfl, hgen rustToLowercase Char.isAlphanum⟩

/-- Extract the trimmed key of a `key: value` line, when the line
contains a colon. -/
def keyOf (line : Str) : Option Str :=
  match splitn2Char ':' line with
  | [k, _] => some (trim k)
  | _ => none

/-- C10: when a recognized key occurs on several metadata lines, each
later occurrence silently overwrites the earlier one — processing a
line and then a second line with the same recognized key is the same as
processing only the second — so folding the lines leaves the last
occurrence's value; spelt out for `title`, and checked on a concrete
two-title document. -/
theorem recognized_key_last_occurrence_wins (m : Metadata) (l₁ l₂ : Str)
    (hkey : keyOf l₁ = keyOf l₂) (hrec : recognizedMetaLine l₁ = true) :
    (applyMetaLine (applyMetaLine m l₁) l₂ = applyMetaLine m l₂) ∧
    (∀ pre post line, setsTitle line = true →
      (∀ l ∈ post, setsTitle l = false) →
      (((pre ++ line :: post).foldl applyMetaLine m).title =
        trim_matches (Char.ofNat 34) (trim ((splitn2Char ':' line).getD 1 [])))) ∧
    (parse_metadata "---\ntitle: A\ntitle: B\n---\nbody".data).map Metadata.title =
      some "B".data := by
  refine ⟨?_, ?_, by decide⟩
  · unfold keyOf at hkey
    unfold recognizedMetaLine at hrec
    unfold applyMetaLine
    cases hsp₁ : splitn2Char ':' l₁ with
    | nil => simp [hsp₁] at hrec
    | cons k₁ r₁ =>
      cases r₁ with
      | nil => simp [hsp₁] at hrec
      | cons v₁ r₂ =>
        cases r₂ with
        | cons w r₃ => simp [hsp₁] at hrec
        | nil =>
          rw [hsp₁] at hkey hrec
          cases hsp₂ : splitn2Char ':' l₂ with
          | nil => simp [hsp₂] at hkey
          | cons k₂ s₁ =>
            cases s₁ with
            | nil => simp [hsp₂] at hkey
            | cons v₂ s₂ =>
              cases s₂ with
              | cons w s₃ => simp [hsp₂] at hkey
              | nil =>
                rw [hsp₂] at hkey
                simp only [Option.some.injEq] at hkey
                simp only [decide_eq_true_eq] at hrec
                rcases hrec with h|h|h|h|h|h|h|h|h|h|h|h <;>
                  · have h2 := hkey.symm.trans h
                    simp [h, h2]
  · intro pre post line hline hpost
    rw [List.foldl_append, List.foldl_cons,
      foldl_title_invariant _ _ hpost, applyMetaLine_setsTitle _ _ hline]

/-- Witness for C10: a second `date` line overwrites the first, and the
last of two `title` lines wins in a concrete fold. -/
theorem recognized_key_last_occurrence_wins_witness :
    (applyMetaLine (applyMetaLine {} "date: 2001-01-01".data)
        "date: 2002-02-02".data =
      applyMetaLine {} "date: 2002-02-02".data) ∧
    ((["title: A".data] ++ "title: B".data :: ["date: 2024-01-01".data]).foldl
        applyMetaLine ({} : Metadata)).title =
      trim_matches (Char.ofNat 34)
        (trim ((splitn2Char ':' "title: B".data).getD 1 [])) :=
  have H := recognized_key_last_occurrence_wins {} "date: 2001-01-01".data
    "date: 2002-02-02".data (by decide) (by decide)
  ⟨H.1, H.2.1 ["title: A".data] ["date: 2024-01-01".data] "title: B".data
    (by decide) (by decide)⟩

/-- C1: inside a heading, text and inline code extend the plain-text
accumulator, soft and hard breaks add a single space, every buffered
event also appends its default rendering to the inner-HTML accumulator,
and the heading-end event emits
`<h{level} id="{slugify(plain_text)}">{inner_html}</h{level}>` and
clears both accumulators; concretely, the event stream of
`## Hello, World!` renders to `<h2 id="hello-world">Hello, World!</h2>`. -/
theorem heading_transduction (pushHtml : Event → Str)
    (highlightFn : Str → Str → Str) (s : TransducerState) (lvl : Nat)
    (h : s.heading_level = some lvl) :
    (∀ t, processEvent pushHtml highlightFn s (.text t) =
      { s with heading_text := s.heading_text ++ t,
               heading_inner := s.heading_inner ++ pushHtml (.text t) }) ∧
    (∀ t, processEvent pushHtml highlightFn s (.code t) =
      { s with heading_text := s.heading_text ++ t,
               heading_inner := s.heading_inner ++ pushHtml (.code t) }) ∧
    (processEvent pushHtml highlightFn s .softBreak =
      { s with heading_text := s.heading_text ++ [' '],
               heading_inner := s.heading_inner ++ pushHtml .softBreak }) ∧
    (processEvent pushHtml highlightFn s .hardBreak =
      { s with heading_text := s.heading_text ++ [' '],
               heading_inner := s.heading_inner ++ pushHtml .hardBreak }) ∧
    (∀ name, processEvent pushHtml highlightFn s (.startStrikethrough) =
        { s with heading_inner := s.heading_inner ++ pushHtml .startStrikethrough } ∧
      processEvent pushHtml highlightFn s (.footnoteReference name) =
        { s with heading_inner := s.heading_inner ++ pushHtml (.footnoteReference name) }) ∧
    (processEvent pushHtml highlightFn s .endHeading =
      { s with
        html_output := s.html_output ++ "<h".data ++ natToChars lvl
          ++ " id=\"".data ++ slugify s.heading_text ++ "\">".data
          ++ s.heading_inner ++ "</h".data ++ natToChars lvl ++ ">".data,
        heading_level := none, heading_text := [], heading_inner := [] }) ∧
    markdown_to_html_events pushHtmlModel fallbackBlock
        [.startHeading .h2, .text "Hello, World!".data, .endHeading] =
      "<h2 id=\"hello-world\">Hello, World!</h2>".data := by
  refine ⟨fun t => ?_, fun t => ?_, ?_, ?_, fun name => ⟨?_, ?_⟩, ?_, by decide⟩
  all_goals simp only [processEvent, h]

/-- Witness for C1: the heading-end step applied to a concrete buffered
state. -/
theorem heading_transduction_witness :
    processEvent pushHtmlModel fallbackBlock
      ⟨[], false, [], [], false, some 2, "Hello, World!".data,
        "Hello, World!".data⟩ .endHeading =
      { (⟨[], false, [], [], false, some 2, "Hello, World!".data,
          "Hello, World!".data⟩ : TransducerState) with
        html_output := ([] : Str) ++ "<h".data ++ natToChars 2
          ++ " id=\"".data ++ slugify "Hello, World!".data ++ "\">".data
          ++ "Hello, World!".data ++ "</h".data ++ natToChars 2 ++ ">".data,
        heading_level := none, heading_text := [], heading_inner := [] } :=
  (heading_transduction pushHtmlModel fallbackBlock _ 2 rfl).2.2.2.2.2.1

/-- C3: `highlight_code` resolves its grammar by exact name, then file
extension, then the plain-text grammar, and whenever the external
renderer fails it returns the escaped `<pre><code class="language-...">`
fallback block, which is total by construction. -/
theorem highlight_resolution_and_fallback {Syn : Type}
    (fbt fbe : Str → Option Syn) (ptx : Syn)
    (render : Str → Syn → Except Unit Str) (code lang : Str) :
    (∀ s, fbt lang = some s → resolveSyntax fbt fbe ptx lang = s) ∧
    (fbt lang = none → ∀ s, fbe lang = some s →
      resolveSyntax fbt fbe ptx lang = s) ∧
    (fbt lang = none → fbe lang = none →
      resolveSyntax fbt fbe ptx lang = ptx) ∧
    (∀ err, render code (resolveSyntax fbt fbe ptx lang) = Except.error err →
      highlight_code fbt fbe ptx render code lang = fallbackBlock code lang) := by
  refine ⟨?_, ?_, ?_, ?_⟩
  · intro s hs
    simp [resolveSyntax, hs]
  · intro h1 s hs
    simp [resolveSyntax, h1, hs]
  · intro h1 h2
    simp [resolveSyntax, h1, h2]
  · intro err herr
    simp [highlight_code, herr]

/-- Witness for C3: with a registry that resolves nothing and a renderer
that always fails, the `python` hint yields the fallback block, whose
escaped concrete rendering is checked. -/
theorem highlight_resolution_and_fallback_witness :
    @highlight_code Unit (fun _ => none) (fun _ => none) ()
        (fun _ _ => Except.error ()) "print(1)".data "python".data =
      fallbackBlock "print(1)".data "python".data ∧
    fallbackBlock "print(1)".data "python".data =
      ("<pre class=\"bg-gray-900 text-gray-100 p-4 rounded-lg overflow-x-auto my-4\">"
        ++ "<code class=\"language-python\">print(1)</code></pre>").data ∧
    fallbackBlock "if a<b \x7b\x7d".data "python".data =
      ("<pre class=\"bg-gray-900 text-gray-100 p-4 rounded-lg overflow-x-auto my-4\">"
        ++ "<code class=\"language-python\">if a&lt;b \x7b\x7d</code></pre>").data :=
  ⟨(highlight_resolution_and_fallback (fun _ => none) (fun _ => none) ()
      (fun _ _ => Except.error ()) "print(1)".data "python".data).2.2.2 () rfl,
   by decide, by decide⟩

/-- C4: when the front-matter date string does not parse as a
`YYYY-MM-DD` calendar date, the assembled post takes the file's
modification time (or the current time when that is missing) for both
the display date and `date_iso`; assembly is total, so no error is
surfaced. -/
theorem invalid_date_uses_mtime (cfg : SiteConfig)
    (localOfUtc : LocalDateTime → LocalDateTime) (mdToHtml : Str → Str)
    (fn : Str) (m : Metadata) (body : Str) (mtime : Option LocalDateTime)
    (now : LocalDateTime) (h : parseDateYmd m.date = none) :
    (assemblePost cfg localOfUtc mdToHtml fn m body mtime now).date =
      formatDisplay (mtime.getD now) ∧
    (assemblePost cfg localOfUtc mdToHtml fn m body mtime now).date_iso =
      formatIso (mtime.getD now) := by
  unfold assemblePost resolveDate
  rw [h]
  exact ⟨rfl, rfl⟩

/-- Witness for C4: `date: 2024-13-40` (month 13, day 40) falls back to
the concrete modification time. -/
theorem invalid_date_uses_mtime_witness :
    (assemblePost ⟨[], [], [], [], [], [], []⟩ id id "p.md".data
        { title := "T".data, date := "2024-13-40".data } "body".data
        (some ⟨2023, 5, 6, 7, 8, 9, "+0000".data⟩)
        ⟨2025, 1, 1, 0, 0, 0, "+0000".data⟩).date =
      formatDisplay ((some ⟨2023, 5, 6, 7, 8, 9, "+0000".data⟩).getD
        ⟨2025, 1, 1, 0, 0, 0, "+0000".data⟩) ∧
    (assemblePost ⟨[], [], [], [], [], [], []⟩ id id "p.md".data
        { title := "T".data, date := "2024-13-40".data } "body".data
        (some ⟨2023, 5, 6, 7, 8, 9, "+0000".data⟩)
        ⟨2025, 1, 1, 0, 0, 0, "+0000".data⟩).date_iso =
      formatIso ((some ⟨2023, 5, 6, 7, 8, 9, "+0000".data⟩).getD
        ⟨2025, 1, 1, 0, 0, 0, "+0000".data⟩) :=
  invalid_date_uses_mtime ⟨[], [], [], [], [], [], []⟩ id id "p.md".data
    { title := "T".data, date := "2024-13-40".data } "body".data
    (some ⟨2023, 5, 6, 7, 8, 9, "+0000".data⟩)
    ⟨2025, 1, 1, 0, 0, 0, "+0000".data⟩ (by decide)

/-- C6: when the metadata summary is empty, the post summary is the
first 160 characters of the raw body followed by `...` (exactly 160
characters when the body is longer than 160); a non-empty metadata
summary is used unchanged. -/
theorem summary_resolution (cfg : SiteConfig)
    (localOfUtc : LocalDateTime → LocalDateTime) (mdToHtml : Str → Str)
    (fn : Str) (m : Metadata) (body : Str) (mtime : Option LocalDateTime)
    (now : LocalDateTime) :
    (m.summary = [] → 160 < body.length →
      (assemblePost cfg localOfUtc mdToHtml fn m body mtime now).summary =
        body.take 160 ++ "...".data ∧ (body.take 160).length = 160) ∧
    (m.summary ≠ [] →
      (assemblePost cfg localOfUtc mdToHtml fn m body mtime now).summary =
        m.summary) := by
  constructor
  · intro hs hlen
    refine ⟨?_, ?_⟩
    · simp [assemblePost, hs]
    · rw [List.length_take]
      exact Nat.min_eq_left (Nat.le_of_lt hlen)
  · intro hs
    simp [assemblePost, hs]

set_option maxRecDepth 8000 in
/-- Witness for C6: a 200-character body with an empty metadata summary
is truncated to 160 characters plus `...`; a non-empty summary is kept. -/
theorem summary_resolution_witness :
    ((assemblePost ⟨[], [], [], [], [], [], []⟩ id id "p.md".data
        { title := "T".data } (List.replicate 200 'a') none
        ⟨2025, 1, 1, 0, 0, 0, "+0000".data⟩).summary =
      (List.replicate 200 'a').take 160 ++ "...".data ∧
      ((List.replicate 200 'a').take 160).length = 160) ∧
    (assemblePost ⟨[], [], [], [], [], [], []⟩ id id "p.md".data
        { title := "T".data, summary := "S".data } (List.replicate 200 'a') none
        ⟨2025, 1, 1, 0, 0, 0, "+0000".data⟩).summary = "S".data :=
  ⟨(summary_resolution ⟨[], [], [], [], [], [], []⟩ id id "p.md".data
      { title := "T".data } (List.replicate 200 'a') none
      ⟨2025, 1, 1, 0, 0, 0, "+0000".data⟩).1 rfl (by simp),
   (summary_resolution ⟨[], [], [], [], [], [], []⟩ id id "p.md".data
      { title := "T".data, summary := "S".data } (List.replicate 200 'a') none
      ⟨2025, 1, 1, 0, 0, 0, "+0000".data⟩).2 (by decide)⟩

/-- C7: the front-matter line `tags: [rust, web, "axum blog"]` parses to
the tags `rust`, `web`, `axum blog` in that order; in general every
parsed tag is a whitespace- and quote-trimmed comma segment, and no
empty element survives. -/
theorem tags_bracket_round_trip :
    ((parse_metadata "---\ntags: [rust, web, \"axum blog\"]\n---\nbody".data).map
        Metadata.tags =
      some ["rust".data, "web".data, "axum blog".data]) ∧
    (∀ value : Str, [] ∉ parseTags value) ∧
    (∀ value : Str, ∀ t ∈ parseTags value, ∃ raw,
      t = trim_matches (Char.ofNat 39) (trim_matches (Char.ofNat 34) (trim raw))) := by
  refine ⟨by decide, ?_, ?_⟩
  · intro value hmem
    have := List.of_mem_filter hmem
    simp at this
  · intro value t hmem
    have hmap := List.mem_of_mem_filter hmem
    obtain ⟨raw, _, hraw⟩ := List.mem_map.mp hmap
    exact ⟨raw, hraw.symm⟩

/-- Witness for C7: the membership clauses applied to the concrete
bracket-list value. -/
theorem tags_bracket_round_trip_witness :
    ([] ∉ parseTags "[rust, web]".data) ∧
    (∃ raw, "rust".data =
      trim_matches (Char.ofNat 39) (trim_matches (Char.ofNat 34) (trim raw))) :=
  ⟨tags_bracket_round_trip.2.1 "[rust, web]".data,
   tags_bracket_round_trip.2.2 "[rust, web]".data "rust".data (by decide)⟩

/-- C8: the collection built by `get_posts` is sorted by `date_iso` in
descending lexicographic order — every earlier post's `date_iso` is
string-greater-or-equal to every later one's — and concretely a post
dated `2024-01-02T...` is ordered before one dated `2024-01-01T...`. -/
theorem posts_sorted_by_date_desc (cfg : SiteConfig)
    (localOfUtc : LocalDateTime → LocalDateTime) (mdToHtml : Str → Str)
    (files : List (Str × Str × Option LocalDateTime)) (now : LocalDateTime) :
    (get_posts cfg localOfUtc mdToHtml files now).Pairwise
      (fun a b => b.date_iso ≤ a.date_iso) ∧
    sortByDateIsoDesc
        [mkDatePost "2024-01-01T00:00:00+0000".data,
         mkDatePost "2024-01-02T00:00:00+0000".data] =
      [mkDatePost "2024-01-02T00:00:00+0000".data,
       mkDatePost "2024-01-01T00:00:00+0000".data] := by
  constructor
  · haveI : IsTotal Post (fun a b => b.date_iso ≤ a.date_iso) :=
      ⟨fun a b => le_total b.date_iso a.date_iso⟩
    haveI : IsTrans Post (fun a b => b.date_iso ≤ a.date_iso) :=
      ⟨fun a b c h1 h2 => le_trans h2 h1⟩
    exact List.sorted_insertionSort _ _
  · decide
